import Mathlib

/-!
Shallow embedding of the nxus-feedreader module (class `FeedReader`):
the feed registry (`feed`, `unfeed`), the handler registry (`process`,
`_processItem`), the fetch pipeline (`_fetch`, `_fetchFeed`) and the
read-tracking parser context (`_createParser`).

Timestamps are modelled as `Nat` (JavaScript `Date` values under their
total order; a `Date` object is always truthy, so presence of a
timestamp is modelled with `Option`).  The watermark storage model
`feedreader-feedread` (fields `url`, `meta`, plus the storage layer's
`updatedAt`) is modelled as a list of records with `findOne` /
`createOrUpdate` upsert semantics; `createOrUpdate` stamps the record
with the write time `now`.
-/

/-- Feed-level metadata emitted once by the parser (`meta` event); the
pipeline only consults its `date`. -/
structure FeedMeta where
  date : Nat
deriving Repr, DecidableEq

/-- A parsed feed item (`readable` handler reads these); the pipeline
only consults `guid` (logging) and `date`. -/
structure Item where
  guid : String
  date : Nat
deriving Repr, DecidableEq

/-- The `meta` blob of a stored watermark record; its `date` field may
be absent (`last.meta && last.meta.date` check in the source). -/
structure StoredMeta where
  date : Option Nat
deriving Repr, DecidableEq

/-- One persisted record of the `feedreader-feedread` model:
`url` (key), `meta` (json blob, possibly absent), and the storage
layer's `updatedAt` timestamp. -/
structure FeedRead where
  url : String
  meta : Option StoredMeta
  updatedAt : Nat
deriving Repr, DecidableEq

/-- `this.models[feedreader-feedread].findOne({url})`: first record
whose `url` matches, if any. -/
def findOne : List FeedRead → String → Option FeedRead
  | [], _ => none
  | r :: rest, url => if r.url = url then some r else findOne rest url

/-- `this.models[feedreader-feedread].createOrUpdate({url}, {url, meta})`:
upsert by `url`; the storage layer stamps `updatedAt` with the write
time `now`. -/
def createOrUpdate : List FeedRead → String → Option StoredMeta → Nat → List FeedRead
  | [], url, m, now => [⟨url, m, now⟩]
  | r :: rest, url, m, now =>
    if r.url = url then ⟨url, m, now⟩ :: rest
    else r :: createOrUpdate rest url m now

/-- The `lastRead` computation of `_createParser`:
`if (last) { if (last.meta && last.meta.date) lastRead = last.meta.date
else lastRead = last.updatedAt }`. -/
def lastReadOf : Option FeedRead → Option Nat
  | none => none
  | some last =>
    match last.meta with
    | some m =>
      match m.date with
      | some d => some d
      | none => some last.updatedAt
    | none => some last.updatedAt

/-- The `meta` event handler's effect on the `skip` flag:
`if (lastRead && lastRead >= meta.date) skip = true`. -/
def skipAfterMeta (skip : Bool) (lastRead : Option Nat) (m : FeedMeta) : Bool :=
  match lastRead with
  | some lr => if m.date ≤ lr then true else skip
  | none => skip

/-- The `continue` guard of the `readable` handler:
`readTracking && !skip && lastRead && item.date >= lastRead`.
An item is dispatched to `processItem` exactly when this is `false`. -/
def itemSkipped (readTracking skip : Bool) (lastRead : Option Nat) (item : Item) : Bool :=
  readTracking && !skip && lastRead.isSome && decide (lastRead.getD 0 ≤ item.date)

/-- A feed document that parses to completion: one `meta` event
followed by the items in emission order, then `end`. -/
structure ParsedFeed where
  meta : FeedMeta
  items : List Item
deriving Repr, DecidableEq

/-- Observable outcome of one parser run: the items handed to the
`processItem` stage in dispatch order, and the watermark store after
the `end` handler ran. -/
structure ParseResult where
  dispatched : List Item
  store : List FeedRead
deriving Repr, DecidableEq

/-- The `_createParser` pipeline on a feed that parses to completion,
with `readTracking = this.config.enableReadTracking` (the config is
constant over one fetch, so the flag captured before parsing and the
flag re-read in the `end` handler agree):
look up `lastRead` (only when read tracking is on), set `skip` on the
`meta` event, dispatch each emitted item whose `continue` guard is
false, and in the `end` handler upsert the watermark with the captured
meta. -/
def runParser (readTracking : Bool) (store : List FeedRead) (url : String)
    (pf : ParsedFeed) (now : Nat) : ParseResult :=
  let lastRead := if readTracking then lastReadOf (findOne store url) else none
  let skip := skipAfterMeta false lastRead pf.meta
  let dispatched := pf.items.filter (fun i => !itemSkipped readTracking skip lastRead i)
  let store' := if readTracking then createOrUpdate store url (some ⟨some pf.meta.date⟩) now
                else store
  ⟨dispatched, store'⟩

/-- What the parser produces from the response body: either a complete
parse, or a parse error after an optional `meta` event and a prefix of
items (the `error` event fires, the `end` event never does). -/
inductive BodyOutcome where
  | complete (pf : ParsedFeed)
  | broken (m : Option FeedMeta) (items : List Item) (err : String)
deriving Repr, DecidableEq

/-- What the HTTP request yields: a transport error, or a response
with a status code and a body. -/
inductive HttpEvent where
  | transportError (err : String)
  | response (status : Nat) (body : BodyOutcome)
deriving Repr, DecidableEq

/-- Observable outcome of `_fetchFeed`: how the returned promise
settles, the items handed to `processItem`, and the watermark store
afterwards. -/
structure FetchFeedResult where
  outcome : Except String Unit
  dispatched : List Item
  store : List FeedRead
deriving Repr

/-- `_fetchFeed({url, ident})`: on transport error `reject(err)`; on a
non-200 status `req.emit(error, Bad status code)` rejects and the body
is never piped into the parser; on 200 the body streams through the
parser context — a complete parse resolves via the `end` handler
(which also writes the watermark), a parse error rejects via the
parser's `error` handler after the already-emitted items were
dispatched, leaving the watermark unwritten. -/
def fetchFeed (readTracking : Bool) (store : List FeedRead) (url : String)
    (ev : HttpEvent) (now : Nat) : FetchFeedResult :=
  match ev with
  | .transportError e => ⟨.error e, [], store⟩
  | .response status body =>
    if status = 200 then
      match body with
      | .complete pf =>
        let r := runParser readTracking store url pf now
        ⟨.ok (), r.dispatched, r.store⟩
      | .broken m items e =>
        let lastRead := if readTracking then lastReadOf (findOne store url) else none
        let skip := match m with
          | some mm => skipAfterMeta false lastRead mm
          | none => false
        ⟨.error e, items.filter (fun i => !itemSkipped readTracking skip lastRead i), store⟩
    else ⟨.error "Bad status code", [], store⟩

/-- Options map passed to `feed(ident, url, options)`: it may itself
carry `url` and `ident` keys, plus arbitrary further entries. -/
structure FeedOptions where
  url : Option String
  ident : Option String
  extra : List (String × String)
deriving Repr, DecidableEq

/-- A stored feed descriptor (`this._feeds[ident]`). -/
structure FeedDescriptor where
  url : String
  ident : String
  extra : List (String × String)
deriving Repr, DecidableEq

/-- `Object.assign({url, ident}, options)`: start from the `url` and
`ident` arguments, then copy every own key of `options` over them. -/
def mkFeedDescriptor (ident url : String) (o : FeedOptions) : FeedDescriptor :=
  { url := o.url.getD url, ident := o.ident.getD ident, extra := o.extra }

/-- `this._feeds[k]` lookup on the insertion-ordered key/value list
modelling the JS object. -/
def feedsGet : List (String × FeedDescriptor) → String → Option FeedDescriptor
  | [], _ => none
  | p :: rest, k => if p.1 = k then some p.2 else feedsGet rest k

/-- `this._feeds[k] = d`: overwrite in place if the key exists, else
append (JS object insertion order). -/
def feedsSet : List (String × FeedDescriptor) → String → FeedDescriptor → List (String × FeedDescriptor)
  | [], k, d => [(k, d)]
  | p :: rest, k, d => if p.1 = k then (k, d) :: rest else p :: feedsSet rest k d

/-- `feed(ident, url, options)`:
`this._feeds[ident] = Object.assign({url, ident}, options)`. -/
def feed (fs : List (String × FeedDescriptor)) (ident url : String) (o : FeedOptions) :
    List (String × FeedDescriptor) :=
  feedsSet fs ident (mkFeedDescriptor ident url o)

/-- `unfeed(ident)`: `delete this._feeds[ident]`. -/
def unfeed : List (String × FeedDescriptor) → String → List (String × FeedDescriptor)
  | [], _ => []
  | p :: rest, ident => if p.1 = ident then unfeed rest ident else p :: unfeed rest ident

/-- `this._processors`: keyed by an ident or by the wildcard key
(`null` when `process` is called with just a handler).  Handlers are
identified by a registration number. -/
def Processors := Option String → Option (List Nat)

/-- `process(ident, handler)` after the argument shuffle
(`ident = null` for the wildcard form):
`if (!this._processors[ident]) this._processors[ident] = [];
this._processors[ident].push(handler)`. -/
def process (ps : Processors) (ident : Option String) (h : Nat) : Processors :=
  fun k => if k = ident then some ((ps ident).getD [] ++ [h]) else ps k

/-- The handler list assembled by `_processItem`:
`[].concat(this._processors[null] || []).concat(this._processors[ident] || [])`. -/
def processorsFor (ps : Processors) (ident : String) : List Nat :=
  (ps none).getD [] ++ (ps (some ident)).getD []

/-- `_processItem({item, ident})`: invoke each handler of
`processorsFor` in order, each awaited to completion before the next
starts; modelled as the ordered trace of invocations
(handler id, item guid, ident). -/
def _processItem (ps : Processors) (item : Item) (ident : String) :
    List (Nat × String × String) :=
  (processorsFor ps ident).map (fun h => (h, item.guid, ident))

/-- In-memory state of the `FeedReader` instance: the feed registry
and the handler registry. -/
structure FeedReaderState where
  feeds : List (String × FeedDescriptor)
  processors : Processors

/-- `unfeed` on the instance state: only `this._feeds` is touched. -/
def unfeedS (s : FeedReaderState) (ident : String) : FeedReaderState :=
  { s with feeds := unfeed s.feeds ident }

/-- `feed` on the instance state: only `this._feeds` is touched. -/
def feedS (s : FeedReaderState) (ident url : String) (o : FeedOptions) : FeedReaderState :=
  { s with feeds := feed s.feeds ident url o }

/-- JS truthiness of the `ident` argument in `if (ident)`:
`undefined` and the empty string are falsy. -/
def identTruthy : Option String → Bool
  | none => false
  | some s => s ≠ ""

/-- A synchronous JS evaluation: a value, or a thrown exception. -/
inductive JSResult (α : Type) where
  | ok (a : α)
  | thrown (e : String)
deriving Repr, DecidableEq

/-- `_fetch({ident})` (queues disabled): with a truthy `ident` it calls
`_fetchFeed(this._feeds[ident])`; when the ident is unregistered that
argument is `undefined` and the parameter destructuring
`_fetchFeed({url, ident})` throws a TypeError before any fetch starts.
Otherwise it fetches every registered descriptor.  The result is the
list of descriptors handed to `_fetchFeed`. -/
def _fetch (feeds : List (String × FeedDescriptor)) (ident : Option String) :
    JSResult (List FeedDescriptor) :=
  if identTruthy ident then
    match feedsGet feeds (ident.getD "") with
    | some d => .ok [d]
    | none => .thrown "TypeError: cannot destructure undefined feed descriptor"
  else
    .ok (feeds.map Prod.snd)

theorem findOne_createOrUpdate (store : List FeedRead) (url : String)
    (m : Option StoredMeta) (now : Nat) :
    findOne (createOrUpdate store url m now) url = some ⟨url, m, now⟩ := by
  induction store with
  | nil => simp [createOrUpdate, findOne]
  | cons r rest ih =>
    by_cases h : r.url = url
    · simp [createOrUpdate, findOne, h]
    · simp [createOrUpdate, findOne, h, ih]

theorem feedsGet_feedsSet (fs : List (String × FeedDescriptor)) (k : String)
    (d : FeedDescriptor) : feedsGet (feedsSet fs k d) k = some d := by
  induction fs with
  | nil => simp [feedsSet, feedsGet]
  | cons p rest ih =>
    by_cases h : p.1 = k
    · simp [feedsSet, feedsGet, h]
    · simp [feedsSet, feedsGet, h, ih]

theorem feedsGet_unfeed_self (fs : List (String × FeedDescriptor)) (ident : String) :
    feedsGet (unfeed fs ident) ident = none := by
  induction fs with
  | nil => simp [unfeed, feedsGet]
  | cons p rest ih =>
    by_cases h : p.1 = ident
    · simp [unfeed, h, ih]
    · simp [unfeed, feedsGet, h, ih]

theorem feedsGet_unfeed_other (fs : List (String × FeedDescriptor)) (ident k : String)
    (h : k ≠ ident) : feedsGet (unfeed fs ident) k = feedsGet fs k := by
  induction fs with
  | nil => simp [unfeed]
  | cons p rest ih =>
    by_cases hp : p.1 = ident
    · have hpk : p.1 ≠ k := fun hk => h (hk ▸ hp)
      rw [show unfeed (p :: rest) ident = unfeed rest ident from by simp [unfeed, hp]]
      rw [ih]
      simp [feedsGet, hpk]
    · rw [show unfeed (p :: rest) ident = p :: unfeed rest ident from by simp [unfeed, hp]]
      simp [feedsGet, ih]

/-- Claim C4: with read tracking disabled, every item emitted by the
parser is dispatched to `processItem` exactly once, in emission
order. -/
theorem claim_C4_no_tracking_dispatch_all (store : List FeedRead) (url : String)
    (pf : ParsedFeed) (now : Nat) :
    (runParser false store url pf now).dispatched = pf.items := by
  simp [runParser, itemSkipped]

/-- Claim C5: with read tracking enabled and no prior watermark record
for the URL, the effective `lastRead` is absent, every emitted item is
dispatched, and a watermark record for the URL is written at
end-of-stream. -/
theorem claim_C5_no_watermark_dispatch_all (store : List FeedRead) (url : String)
    (pf : ParsedFeed) (now : Nat) (h : findOne store url = none) :
    lastReadOf (findOne store url) = none ∧
    (runParser true store url pf now).dispatched = pf.items ∧
    findOne (runParser true store url pf now).store url
      = some ⟨url, some ⟨some pf.meta.date⟩, now⟩ := by
  refine ⟨by rw [h]; rfl, ?_, ?_⟩
  · simp [runParser, h, lastReadOf, itemSkipped]
  · simp [runParser, findOne_createOrUpdate]

theorem claim_C5_no_watermark_dispatch_all_witness :
    lastReadOf (findOne [] "u") = none ∧
    (runParser true [] "u" ⟨⟨5⟩, [⟨"g", 7⟩]⟩ 9).dispatched = [⟨"g", 7⟩] ∧
    findOne (runParser true [] "u" ⟨⟨5⟩, [⟨"g", 7⟩]⟩ 9).store "u"
      = some ⟨"u", some ⟨some 5⟩, 9⟩ :=
  claim_C5_no_watermark_dispatch_all [] "u" ⟨⟨5⟩, [⟨"g", 7⟩]⟩ 9 rfl

/-- Claim C6: with read tracking enabled, the effective `lastRead`
equals the stored watermark's meta timestamp when present, else the
record's `updatedAt`, else is absent; and the feed-level `skip` flag
is set by the `meta` handler exactly when `lastRead` is present and at
least the emitted metadata timestamp. -/
theorem claim_C6_lastread_and_skip (last : Option FeedRead) (m : FeedMeta) :
    lastReadOf last = last.map (fun l => ((l.meta.bind StoredMeta.date).getD l.updatedAt)) ∧
    (skipAfterMeta false (lastReadOf last) m = true ↔
      ∃ lr, lastReadOf last = some lr ∧ m.date ≤ lr) := by
  constructor
  · cases last with
    | none => rfl
    | some l =>
      cases hm : l.meta with
      | none => simp [lastReadOf, hm]
      | some sm =>
        cases hd : sm.date with
        | none => simp [lastReadOf, hm, hd]
        | some d => simp [lastReadOf, hm, hd]
  · cases hlr : lastReadOf last with
    | none => simp [skipAfterMeta]
    | some lr =>
      by_cases hge : m.date ≤ lr
      · simp [skipAfterMeta, hge]
      · simp [skipAfterMeta, hge]

/-- Claim C7: `_processItem` invokes exactly the wildcard handler list
followed by the ident-specific handler list, in registration order,
and invokes nothing when neither list exists. -/
theorem claim_C7_handler_order (ps : Processors) (item : Item) (ident : String) :
    _processItem ps item ident
      = ((ps none).getD []).map (fun h => (h, item.guid, ident))
        ++ ((ps (some ident)).getD []).map (fun h => (h, item.guid, ident)) ∧
    (ps none = none → ps (some ident) = none → _processItem ps item ident = []) := by
  constructor
  · simp [_processItem, processorsFor]
  · intro h1 h2
    simp [_processItem, processorsFor, h1, h2]

theorem claim_C7_handler_order_witness :
    _processItem (fun _ => none) ⟨"g", 1⟩ "f" = [] :=
  (claim_C7_handler_order (fun _ => none) ⟨"g", 1⟩ "f").2 rfl rfl

/-- Claim C8: a non-200 response fails the fetch with the bad-status
error, dispatches nothing, leaves the watermark store unchanged, and
never feeds the body to the parser (the result does not depend on the
body); a transport error likewise rejects; a parse error rejects with
that error and leaves the watermark store unchanged. -/
theorem claim_C8_error_paths (rt : Bool) (store : List FeedRead) (url : String) (now : Nat) :
    (∀ status b1 b2, status ≠ 200 →
        fetchFeed rt store url (.response status b1) now
          = fetchFeed rt store url (.response status b2) now) ∧
    (∀ status body, status ≠ 200 →
        fetchFeed rt store url (.response status body) now
          = ⟨.error "Bad status code", [], store⟩) ∧
    (∀ e, fetchFeed rt store url (.transportError e) now = ⟨.error e, [], store⟩) ∧
    (∀ m items e,
        (fetchFeed rt store url (.response 200 (.broken m items e)) now).outcome
            = .error e ∧
        (fetchFeed rt store url (.response 200 (.broken m items e)) now).store = store) := by
  refine ⟨?_, ?_, ?_, ?_⟩
  · intro status b1 b2 h
    simp [fetchFeed, h]
  · intro status body h
    simp [fetchFeed, h]
  · intro e
    rfl
  · intro m items e
    exact ⟨rfl, rfl⟩

theorem claim_C8_error_paths_witness :
    fetchFeed true [] "u" (.response 404 (.complete ⟨⟨1⟩, []⟩)) 0
      = ⟨.error "Bad status code", [], []⟩ :=
  (claim_C8_error_paths true [] "u" 0).2.1 404 (.complete ⟨⟨1⟩, []⟩) (by decide)

/-- Claim C9: when the options map itself carries `url` and `ident`
keys, the stored descriptor takes those values, overriding the `url`
and `ident` arguments (`Object.assign` merges `options` last). -/
theorem claim_C9_options_override (fs : List (String × FeedDescriptor))
    (ident url : String) (o : FeedOptions) (u i : String)
    (hu : o.url = some u) (hi : o.ident = some i) :
    feedsGet (feed fs ident url o) ident = some ⟨u, i, o.extra⟩ := by
  have hd : mkFeedDescriptor ident url o = ⟨u, i, o.extra⟩ := by
    simp [mkFeedDescriptor, hu, hi]
  unfold feed
  rw [hd]
  exact feedsGet_feedsSet fs ident _

theorem claim_C9_options_override_witness :
    feedsGet (feed [] "a" "u0" ⟨some "u1", some "b", []⟩) "a"
      = some ⟨"u1", "b", []⟩ :=
  claim_C9_options_override [] "a" "u0" ⟨some "u1", some "b", []⟩ "u1" "b" rfl rfl

/-- Claim C10: `unfeed(ident)` removes only that feed descriptor and
leaves the handler registry untouched; after re-registering a feed
with the same ident, `_processItem` invokes exactly the handlers it
would have invoked before. -/
theorem claim_C10_unfeed_keeps_handlers (s : FeedReaderState) (ident url : String)
    (o : FeedOptions) (item : Item) :
    (unfeedS s ident).processors = s.processors ∧
    feedsGet (unfeedS s ident).feeds ident = none ∧
    (∀ k, k ≠ ident → feedsGet (unfeedS s ident).feeds k = feedsGet s.feeds k) ∧
    _processItem (feedS (unfeedS s ident) ident url o).processors item ident
      = _processItem s.processors item ident :=
  ⟨rfl, feedsGet_unfeed_self s.feeds ident,
    fun k hk => feedsGet_unfeed_other s.feeds ident k hk, rfl⟩

theorem claim_C10_unfeed_keeps_handlers_witness :
    feedsGet (unfeedS ⟨[("news", ⟨"u", "news", []⟩)], fun _ => none⟩ "news").feeds "other"
      = feedsGet [("news", (⟨"u", "news", []⟩ : FeedDescriptor))] "other" :=
  (claim_C10_unfeed_keeps_handlers ⟨[("news", ⟨"u", "news", []⟩)], fun _ => none⟩
    "news" "u2" ⟨none, none, []⟩ ⟨"g", 1⟩).2.2.1 "other" (by decide)

/-- Claim C1 (code bug): the `readable` handler's guard is inverted.
With read tracking on, `skip` false and `lastRead = 5`, a feed whose
metadata timestamp is 9 and whose items are dated 9 (not older than
`lastRead`) and 3 (older than `lastRead`) dispatches exactly the item
dated 3: the fresh item is skipped and the stale item is dispatched,
the opposite of the claimed filter. -/
theorem claim_C1_filter_inverted :
    (runParser true [⟨"u", some ⟨some 5⟩, 4⟩] "u"
      ⟨⟨9⟩, [⟨"fresh", 9⟩, ⟨"old", 3⟩]⟩ 10).dispatched = [⟨"old", 3⟩] := by
  decide

/-- Claim C2 (code bug): when the feed-level `skip` flag is set
(stored meta timestamp 10, emitted metadata timestamp 10), the guard
`!skip` makes every item dispatch — items dated 12 and 3 are both
dispatched, not zero — while the watermark is indeed rewritten with
the fetched metadata at end-of-stream. -/
theorem claim_C2_skip_dispatches_all :
    (runParser true [⟨"u", some ⟨some 10⟩, 9⟩] "u"
      ⟨⟨10⟩, [⟨"a", 12⟩, ⟨"b", 3⟩]⟩ 20).dispatched = [⟨"a", 12⟩, ⟨"b", 3⟩] ∧
    findOne (runParser true [⟨"u", some ⟨some 10⟩, 9⟩] "u"
      ⟨⟨10⟩, [⟨"a", 12⟩, ⟨"b", 3⟩]⟩ 20).store "u" = some ⟨"u", some ⟨some 10⟩, 20⟩ := by
  decide

/-- Claim C3 (code bug): `fetch(ident)` for an unregistered ident
reaches `_fetchFeed(this._feeds[ident])` with an `undefined`
descriptor, and the parameter destructuring throws a TypeError before
any fetch or dispatch happens. -/
theorem claim_C3_unknown_ident_throws :
    _fetch [] (some "news")
      = JSResult.thrown "TypeError: cannot destructure undefined feed descriptor" := by
  decide
